import Mathlib

/- Shallow embedding of the grid transformation engine of
   utils/grid_transformer.py, together with the Grid accessors it relies on
   (utils/grid.py is not among the sources; those accessors are modelled from
   the specification).  Python dictionaries are modelled as ordered
   association lists, float field values as exact rationals extended with
   explicit NaN and None markers, and raised exceptions as Except errors. -/

attribute [local semireducible] Rat.add Rat.mul Rat.inv Rat.sub Rat.ofScientific

/-- Python exception kinds raised by the grid transformer code. -/
inductive GTError where
  | keyError (msg : String)
  | valueError (msg : String)
  | typeError (msg : String)
  | incompleteError (msg : String)
  deriving DecidableEq, Repr

/-- Lookup in an ordered association list (Python dict access d[k]). -/
def lookupA {α β : Type} [DecidableEq α] : List (α × β) → α → Option β
  | [], _ => none
  | (k, v) :: rest, key => if k = key then some v else lookupA rest key

/-- Assignment d[k] = v on a Python dict: replace in place when the key is
present, append otherwise. -/
def setKey {α β : Type} [DecidableEq α] : List (α × β) → α → β → List (α × β)
  | [], key, v => [(key, v)]
  | (k, w) :: rest, key, v =>
    if k = key then (key, v) :: rest else (k, w) :: setKey rest key v

/-- Python del d[k]: none models the KeyError raised for a missing key. -/
def delKey {α β : Type} [DecidableEq α] : List (α × β) → α → Option (List (α × β))
  | [], _ => none
  | (k, w) :: rest, key =>
    if k = key then some rest else (delKey rest key).map (fun l => (k, w) :: l)

/-- Minimum of a list of rationals (numpy.amin on a nonempty axis slice). -/
def listMin : List ℚ → ℚ
  | [] => 0
  | [x] => x
  | x :: y :: rest => min x (listMin (y :: rest))

/-- Maximum of a list of rationals (numpy.amax on a nonempty axis slice). -/
def listMax : List ℚ → ℚ
  | [] => 0
  | [x] => x
  | x :: y :: rest => max x (listMax (y :: rest))

/-- A 3D coordinate. -/
abbrev Point := ℚ × ℚ × ℚ

/-- Squared Euclidean distance between two coordinates. -/
def sqDist (p q : Point) : ℚ :=
  (p.1 - q.1) ^ 2 + (p.2.1 - q.2.1) ^ 2 + (p.2.2 - q.2.2) ^ 2

def xCoords (c : List Point) : List ℚ := c.map (fun p => p.1)

def yCoords (c : List Point) : List ℚ := c.map (fun p => p.2.1)

def zCoords (c : List Point) : List ℚ := c.map (fun p => p.2.2)

/-- A field value stored at a node: a float, the float NaN missing sentinel,
or the Python constant None (written only by a degenerate branch of
transition). -/
inductive FVal where
  | pynone
  | nan
  | num (q : ℚ)
  deriving DecidableEq, Repr

/-- Float multiplication value * w; None as operand is a Python TypeError,
modelled as failure. -/
def fMulQ : FVal → ℚ → Option FVal
  | .pynone, _ => none
  | .nan, _ => some .nan
  | .num q, w => some (.num (q * w))

/-- Float addition with NaN propagation; None as operand fails. -/
def fAdd : FVal → FVal → Option FVal
  | .pynone, _ => none
  | _, .pynone => none
  | .nan, _ => some .nan
  | _, .nan => some .nan
  | .num a, .num b => some (.num (a + b))

/-- Float division by a nonzero rational with NaN propagation. -/
def fDivQ : FVal → ℚ → Option FVal
  | .pynone, _ => none
  | .nan, _ => some .nan
  | .num q, w => some (.num (q / w))

/-- One neighbor record of a correspondence table. -/
structure NRec where
  node_number : ℕ
  distance : ℚ
  deriving DecidableEq, Repr

/-- A correspondence table: target node id to either None (lonely node) or a
list of neighbor records.  An empty list is distinct from None and arises in
the single-neighbor branch of find_nearest_neighbors. -/
abbrev Table := List (ℕ × Option (List NRec))

/-- One node of a Grid: coordinate plus named field values. -/
structure GridNode where
  coord : Point
  vals : List (String × FVal)
  deriving DecidableEq, Repr

/-- Modelled from the spec: a Grid is an ordered collection of nodes keyed by
a unique identifier (utils/grid.py is not among the sources). -/
structure Grid where
  nodes : List (ℕ × GridNode)
  deriving DecidableEq, Repr

/-- Modelled from the spec: Grid.get_coordinates_array returns the node
coordinates in the canonical iteration order, positionally aligned with the
node identifier list. -/
def get_coordinates_array (g : Grid) : List Point :=
  g.nodes.map (fun nn => nn.2.coord)

/-- The list of node identifiers in iteration order
(list(grid.nodes.keys()) in the source). -/
def nodeKeys (g : Grid) : List ℕ :=
  g.nodes.map (fun nn => nn.1)

/-- Modelled from the spec: Grid.get_node_values returns the mapping from
node id to value for one field, restricted to nodes carrying the field. -/
def get_node_values (g : Grid) (value_name : String) : List (ℕ × FVal) :=
  g.nodes.filterMap (fun nn => (lookupA nn.2.vals value_name).map (fun v => (nn.1, v)))

/-- Modelled from the spec: node.set_value assigns one field value on one
node; a missing node id is a Python KeyError. -/
def setNodeValue (g : Grid) (node : ℕ) (value_name : String) (v : FVal) :
    Except GTError Grid :=
  match lookupA g.nodes node with
  | none => .error (.keyError "node not found in target grid")
  | some nd =>
    .ok { nodes := setKey g.nodes node { nd with vals := setKey nd.vals value_name v } }

/-- Modelled from the spec: Grid.check_value_set_completeness verifies that
every node carries some entry for the field. -/
def check_value_set_completeness (g : Grid) (value_name : String) : Bool :=
  g.nodes.all (fun nn => (lookupA nn.2.vals value_name).isSome)

/-- One registry entry: the grid plus its cached correspondence tables keyed
by source grid name (self.grids[name] in the source). -/
structure TransGrid where
  transform : List (String × Table)
  grid : Grid
  deriving DecidableEq, Repr

/-- The GridTransformer state: named grids in registration order. -/
structure GridTransformer where
  grids : List (String × TransGrid)
  deriving DecidableEq, Repr

/-- GridTransformer.add_grid: adding an already registered name is a
KeyError, otherwise the grid is appended with an empty transform cache. -/
def add_grid (gt : GridTransformer) (grid : Grid) (grid_name : String) :
    Except GTError GridTransformer :=
  match lookupA gt.grids grid_name with
  | some _ => .error (.keyError "Grid with this name already exists.")
  | none => .ok { grids := gt.grids ++ [(grid_name, { transform := [], grid := grid })] }

/-- GridTransformer.update_grid: after the existence check the source
executes del self.grids[...] with the literal string key grid_name instead
of the variable holding the target name, then calls add_grid. -/
def update_grid (gt : GridTransformer) (grid : Grid) (grid_name : String) :
    Except GTError GridTransformer :=
  match lookupA gt.grids grid_name with
  | none => .error (.keyError "Grid with this name does not exist.")
  | some _ =>
    match delKey gt.grids "grid_name" with
    | none => .error (.keyError "grid_name")
    | some grids2 => add_grid { grids := grids2 } grid grid_name

/-- Insert one (index, distance) pair into a list sorted by distance, ties
broken by ascending original index. -/
def insertPair (x : ℕ × ℚ) : List (ℕ × ℚ) → List (ℕ × ℚ)
  | [] => [x]
  | y :: ys =>
    if x.2 < y.2 ∨ (x.2 = y.2 ∧ x.1 ≤ y.1) then x :: y :: ys else y :: insertPair x ys

/-- Insertion sort by (distance, index). -/
def sortPairs : List (ℕ × ℚ) → List (ℕ × ℚ)
  | [] => []
  | x :: rest => insertPair x (sortPairs rest)

/-- Modelled from the spec: one exact k-nearest-neighbor query against the
spatial index built over the source coordinates (scipy KDTree.query is
external to the sources).  The distance function d is a parameter; theorems
that depend on Euclidean geometry assume d agrees with the Euclidean
distance on the relevant coordinate pairs.  Results are sorted by ascending
distance with ties broken by ascending source index, and at most
min(k, number of source points) neighbors are returned. -/
def knnPoint (src : List Point) (d : Point → Point → ℚ) (k : ℕ) (q : Point) :
    List (ℕ × ℚ) :=
  (sortPairs (src.enum.map (fun pi => (pi.1, d pi.2 q)))).take k

/-- Sizes used by numpy.array_split: for length l and n sections, l mod n
sections of size l / n + 1 followed by sections of size l / n. -/
def splitSizes (l n : ℕ) : List ℕ :=
  (List.range n).map (fun i => l / n + if i < l % n then 1 else 0)

/-- Cut a list into consecutive chunks of the given sizes. -/
def takeSizes {α : Type} : List ℕ → List α → List (List α)
  | [], _ => []
  | s :: ss, xs => xs.take s :: takeSizes ss (xs.drop s)

/-- numpy.array_split of a list into n sections. -/
def arraySplit {α : Type} (n : ℕ) (xs : List α) : List (List α) :=
  takeSizes (splitSizes xs.length n) xs

/-- The single-shot query: one row of neighbor results per target point. -/
def queryBatch (src : List Point) (d : Point → Point → ℚ) (k : ℕ)
    (pts : List Point) : List (List (ℕ × ℚ)) :=
  pts.map (knnPoint src d k)

/-- The chunked query actually executed by find_nearest_neighbors: the
target points are split into 10 sections with numpy.array_split, each
section is queried against the same index, and the per-section results are
concatenated in the original order. -/
def queryChunked (src : List Point) (d : Point → Point → ℚ) (k : ℕ)
    (pts : List Point) : List (List (ℕ × ℚ)) :=
  ((arraySplit 10 pts).map (List.map (knnPoint src d k))).flatten

/-- The overlap test of one axis: min1 less or equal max2 and max1 greater
or equal min2, both comparisons non-strict as in the source. -/
def axisOverlapB (c1 c2 : List ℚ) : Bool :=
  decide (listMin c1 ≤ listMax c2) && decide (listMin c2 ≤ listMax c1)

/-- Python list indexing xs[i - 1] where i - 1 may be -1: index -1 wraps
around to the last element.  This models the source expression
grid_1_nodes[points[i][k] - 1], which is applied to query indices i in
[0, length - 1]. -/
def pyGetPrev (xs : List ℕ) (i : ℕ) : ℕ :=
  xs.getD ((i + xs.length - 1) % xs.length) 0

/-- The per-neighbor cutoff of the source: a neighbor is kept when no finite
maximum distance is configured or its distance does not exceed it. -/
def keepRec (dmax : Option ℚ) (dist : ℚ) : Bool :=
  match dmax with
  | none => true
  | some m => decide (dist ≤ m)

/-- Turn one query result row into neighbor records: look the source node id
up with the off-by-one index of the source and drop neighbors beyond the
cutoff. -/
def rowToRecs (srcKeys : List ℕ) (dmax : Option ℚ) (row : List (ℕ × ℚ)) :
    List NRec :=
  row.filterMap (fun idd =>
    if keepRec dmax idd.2 then some { node_number := pyGetPrev srcKeys idd.1, distance := idd.2 }
    else none)

/-- Table entry built by the single-neighbor branch (1-D query result): when
the lone neighbor exceeds the cutoff the source continues the outer loop,
skipping the lonely-node check, so the entry stays an empty list and is
never turned into None. -/
def singleEntry (srcKeys : List ℕ) (dmax : Option ℚ) (row : List (ℕ × ℚ)) :
    Option (List NRec) :=
  some (rowToRecs srcKeys dmax row)

/-- Table entry built by the multi-neighbor branch, together with its
contribution to the lonely-node counter: an entry whose neighbors were all
dropped is recorded as None and counted. -/
def multiEntry (srcKeys : List ℕ) (dmax : Option ℚ) (row : List (ℕ × ℚ)) :
    Option (List NRec) × ℕ :=
  let recs := rowToRecs srcKeys dmax row
  if recs = [] then (none, 1) else (some recs, 0)

/-- The result-processing loop of find_nearest_neighbors: one table entry
per target node, branching on whether the query result was 1-D (k = 1) or
2-D, plus the lonely-node counter. -/
def buildTable (srcKeys : List ℕ) (tgtKeys : List ℕ) (rows : List (List (ℕ × ℚ)))
    (k : ℕ) (dmax : Option ℚ) : Table × ℕ :=
  match tgtKeys, rows with
  | [], _ => ([], 0)
  | _ :: _, [] => ([], 0)
  | t :: ts, r :: rs =>
    let rest := buildTable srcKeys ts rs k dmax
    if k = 1 then ((t, singleEntry srcKeys dmax r) :: rest.1, rest.2)
    else
      let e := multiEntry srcKeys dmax r
      ((t, e.1) :: rest.1, rest.2 + e.2)

/-- GridTransformer.find_nearest_neighbors, parametrized by the query
strategy (the source contains a dead branch choosing between a single-shot
and a chunked query).  Returns the new state together with the lonely-node
count reported in the log.  An error return models a raised exception, in
which case no table is cached. -/
def find_nearest_neighbors_with
    (q : List Point → (Point → Point → ℚ) → ℕ → List Point → List (List (ℕ × ℚ)))
    (gt : GridTransformer) (grid_name_1 grid_name_2 : String)
    (neighbors_quantity : ℕ) (distance_max : Option ℚ)
    (d : Point → Point → ℚ) : Except GTError (GridTransformer × ℕ) :=
  match lookupA gt.grids grid_name_1 with
  | none => .error (.keyError "grid 1 not found")
  | some e1 =>
    match lookupA gt.grids grid_name_2 with
    | none => .error (.keyError "grid 2 not found")
    | some e2 =>
      let c1 := get_coordinates_array e1.grid
      let c2 := get_coordinates_array e2.grid
      if c1 = [] ∨ c2 = [] then
        .error (.valueError "zero-size array to reduction operation")
      else if axisOverlapB (xCoords c1) (xCoords c2) = false then
        .error (.valueError "not overlapping in x direction")
      else if axisOverlapB (yCoords c1) (yCoords c2) = false then
        .error (.valueError "not overlapping in y direction")
      else if axisOverlapB (zCoords c1) (zCoords c2) = false then
        .error (.valueError "not overlapping in z direction")
      else
        let rows := q c1 d neighbors_quantity c2
        let tc := buildTable (nodeKeys e1.grid) (nodeKeys e2.grid) rows
          neighbors_quantity distance_max
        .ok ({ grids := setKey gt.grids grid_name_2
                 { e2 with transform := setKey e2.transform grid_name_1 tc.1 } }, tc.2)

/-- The source function: the branch selecting the single-shot query is dead
(its condition contains 1 == 2), so the chunked query always runs. -/
def find_nearest_neighbors (gt : GridTransformer) (grid_name_1 grid_name_2 : String)
    (neighbors_quantity : ℕ) (distance_max : Option ℚ) (d : Point → Point → ℚ) :
    Except GTError (GridTransformer × ℕ) :=
  find_nearest_neighbors_with queryChunked gt grid_name_1 grid_name_2
    neighbors_quantity distance_max d

/-- The variant the dead branch would have executed: a single batch query. -/
def find_nearest_neighbors_single (gt : GridTransformer) (grid_name_1 grid_name_2 : String)
    (neighbors_quantity : ℕ) (distance_max : Option ℚ) (d : Point → Point → ℚ) :
    Except GTError (GridTransformer × ℕ) :=
  find_nearest_neighbors_with queryBatch gt grid_name_1 grid_name_2
    neighbors_quantity distance_max d

/-- The weighted-average loop of transition over one neighbor list, with the
running accumulators sum_distance and factor of the source.  A zero-distance
neighbor short-circuits with the exact source value; when the loop finishes
with sum_distance zero the initial Python None survives as the result.
Failure (none) models a raised exception: a missing source value (KeyError)
or arithmetic on None (TypeError). -/
def transNodeVal (vals : ℕ → Option FVal) :
    List NRec → ℚ → FVal → Option FVal
  | [], sum_distance, factor =>
    if sum_distance = 0 then some .pynone else fDivQ factor sum_distance
  | r :: rest, sum_distance, factor =>
    match vals r.node_number with
    | none => none
    | some value =>
      if r.distance = 0 then some value
      else
        match fMulQ value (1 / r.distance) with
        | none => none
        | some t =>
          match fAdd factor t with
          | none => none
          | some f2 => transNodeVal vals rest (sum_distance + 1 / r.distance) f2

/-- The value transition writes for one target node: NaN for a falsy entry
(None or an empty list), otherwise the loop result with both accumulators
starting at zero. -/
def transitionEntry (vals : ℕ → Option FVal) :
    Option (List NRec) → Option FVal
  | none => some .nan
  | some [] => some .nan
  | some (r :: rest) => transNodeVal vals (r :: rest) 0 (.num 0)

/-- Write the transition result for every table entry into the target grid,
in table order. -/
def writeTable (vals : ℕ → Option FVal) (value_name : String) :
    Grid → Table → Except GTError Grid
  | g, [] => .ok g
  | g, (node, e) :: rest =>
    match transitionEntry vals e with
    | none => .error (.keyError "source value lookup failed")
    | some v =>
      match setNodeValue g node value_name v with
      | .error err => .error err
      | .ok g2 => writeTable vals value_name g2 rest

/-- GridTransformer.transition: transfer the named field from the source
grid onto the target grid through the cached correspondence table.  An error
return models a raised exception. -/
def transition (gt : GridTransformer)
    (src_grid_name value_name target_grid_name : String) :
    Except GTError GridTransformer :=
  match lookupA gt.grids src_grid_name with
  | none => .error (.keyError "source grid not found")
  | some se =>
    match lookupA gt.grids target_grid_name with
    | none => .error (.keyError "target grid not found")
    | some te =>
      let src_values := get_node_values se.grid value_name
      if src_values = [] then .error (.keyError "value_name not found in nodes")
      else
        match lookupA te.transform src_grid_name with
        | none => .error (.keyError "no transformation matrix has been found")
        | some tbl =>
          match writeTable (fun n => lookupA src_values n) value_name te.grid tbl with
          | .error e => .error e
          | .ok g2 =>
            if check_value_set_completeness g2 value_name then
              .ok { grids := setKey gt.grids target_grid_name { te with grid := g2 } }
            else .error (.incompleteError "value not set for all nodes")

/-- The per-record scan of nearest_neighbors_stat: strictly positive
distances are collected into the statistics population, any other record
increments the lonely counter. -/
def scanRecs : List NRec → List ℚ × ℕ
  | [] => ([], 0)
  | r :: rs =>
    let p := scanRecs rs
    if 0 < r.distance then (r.distance :: p.1, p.2) else (p.1, p.2 + 1)

/-- The per-entry scan of nearest_neighbors_stat: a falsy entry (None or an
empty list) counts as lonely. -/
def scanTable : Table → List ℚ × ℕ
  | [] => ([], 0)
  | (_, e) :: rest =>
    let p := scanTable rest
    match e with
    | none => (p.1, p.2 + 1)
    | some [] => (p.1, p.2 + 1)
    | some (r :: rs) =>
      let q := scanRecs (r :: rs)
      (q.1 ++ p.1, q.2 + p.2)

/-- The distance population and lonely count nearest_neighbors_stat derives
from one correspondence table; an empty table is itself falsy in Python and
counts as one lonely entry. -/
def statDistances (tbl : Table) : List ℚ × ℕ :=
  if tbl = [] then ([], 1) else scanTable tbl

/-- The figures nearest_neighbors_stat logs per neighborhood.  Mean and
standard deviation are float operations over the same population and are not
modelled; count, min and max are exact. -/
structure StatReport where
  count : ℕ
  dmin : ℚ
  dmax : ℚ
  lonely : ℕ
  deriving DecidableEq, Repr

/-- Statistics of one table; numpy.ndarray.min raises ValueError on an empty
population, modelled as an error. -/
def tableStat (tbl : Table) : Except GTError StatReport :=
  let p := statDistances tbl
  match p.1 with
  | [] => .error (.valueError "zero-size array to reduction operation")
  | _ :: _ =>
    .ok { count := p.1.length, dmin := listMin p.1, dmax := listMax p.1, lonely := p.2 }

/-- Statistics for every cached neighborhood of one grid, in cache order. -/
def statAll : List (String × Table) → Except GTError (List (String × StatReport))
  | [] => .ok []
  | (name, tbl) :: rest =>
    match tableStat tbl with
    | .error e => .error e
    | .ok r =>
      match statAll rest with
      | .error e => .error e
      | .ok rs => .ok ((name, r) :: rs)

/-- GridTransformer.nearest_neighbors_stat: a pure read of the registry that
reports statistics for the named grid. -/
def nearest_neighbors_stat (gt : GridTransformer) (grid_name : String) :
    Except GTError (List (String × StatReport)) :=
  match lookupA gt.grids grid_name with
  | none => .error (.keyError "grid not found")
  | some e => statAll e.transform

/-- The statistics step of transformation_validation: numpy raises TypeError
on object arrays holding None, ValueError on shape mismatch, and
numpy.ndarray.max raises ValueError on an empty array. -/
def roundTripStats (dataBegin dataEnd : List FVal) : Except GTError Unit :=
  if dataBegin.any (fun v => v = .pynone) ∨ dataEnd.any (fun v => v = .pynone) then
    .error (.typeError "unsupported operand type")
  else if dataBegin.length ≠ dataEnd.length then
    .error (.valueError "operands could not be broadcast together")
  else if dataBegin.length = 0 then
    .error (.valueError "zero-size array to reduction operation")
  else .ok ()

/-- State-carrying form of the write loop of transition: Python mutates the
target grid node by node, so when a write step raises, the writes already
performed persist.  The returned grid holds every write up to the failure
point; the Option carries the first raised error, none on full success. -/
def writeTableSt (vals : ℕ → Option FVal) (value_name : String) :
    Grid → Table → Grid × Option GTError
  | g, [] => (g, none)
  | g, (node, e) :: rest =>
    match transitionEntry vals e with
    | none => (g, some (.keyError "source value lookup failed"))
    | some v =>
      match setNodeValue g node value_name v with
      | .error err => (g, some err)
      | .ok g2 => writeTableSt vals value_name g2 rest

/-- State-carrying form of GridTransformer.transition: identical to
transition except that a raised exception is returned alongside the registry
state actually reached, which keeps any node writes performed before the
raise (in Python the mutation is in place on the registered grid).  All
precondition failures occur before the first write and leave the registry
unchanged; a completeness failure occurs after all writes and keeps them. -/
def transitionSt (gt : GridTransformer)
    (src_grid_name value_name target_grid_name : String) :
    GridTransformer × Option GTError :=
  match lookupA gt.grids src_grid_name with
  | none => (gt, some (.keyError "source grid not found"))
  | some se =>
    match lookupA gt.grids target_grid_name with
    | none => (gt, some (.keyError "target grid not found"))
    | some te =>
      let src_values := get_node_values se.grid value_name
      if src_values = [] then (gt, some (.keyError "value_name not found in nodes"))
      else
        match lookupA te.transform src_grid_name with
        | none => (gt, some (.keyError "no transformation matrix has been found"))
        | some tbl =>
          let wr := writeTableSt (fun n => lookupA src_values n) value_name te.grid tbl
          let gt2 : GridTransformer :=
            { grids := setKey gt.grids target_grid_name { te with grid := wr.1 } }
          match wr.2 with
          | some err => (gt2, some err)
          | none =>
            if check_value_set_completeness wr.1 value_name then (gt2, none)
            else (gt2, some (.incompleteError "value not set for all nodes"))

/-- The body of the try block of transformation_validation: snapshot the
source field (numpy.array copies the values), transfer source to target and
back, then compute the loss statistics.  Each step threads the registry
state it reached, so mutations made before a raise are retained.  The
plotting calls are external rendering and not modelled. -/
def roundTripSt (gt : GridTransformer)
    (src_grid_name value_name target_grid_name : String) :
    GridTransformer × Option GTError :=
  match lookupA gt.grids src_grid_name with
  | none => (gt, some (.keyError "source grid not found"))
  | some se =>
    let dataBegin := (get_node_values se.grid value_name).map (fun nv => nv.2)
    let r1 := transitionSt gt src_grid_name value_name target_grid_name
    match r1.2 with
    | some e => (r1.1, some e)
    | none =>
      let r2 := transitionSt r1.1 target_grid_name value_name src_grid_name
      match r2.2 with
      | some e => (r2.1, some e)
      | none =>
        match lookupA r2.1.grids src_grid_name with
        | none => (r2.1, some (.keyError "source grid not found"))
        | some se2 =>
          let dataEnd := (get_node_values se2.grid value_name).map (fun nv => nv.2)
          match roundTripStats dataBegin dataEnd with
          | .error e => (r2.1, some e)
          | .ok _ => (r2.1, none)

/-- GridTransformer.transformation_validation: the whole body runs inside a
try block whose except clause logs the failure at critical severity and
returns False; on success the function returns True.  The embedding returns
the boolean flag together with the registry state the body reached, which on
a caught failure keeps the in-place mutations performed before the raise. -/
def transformation_validation (gt : GridTransformer)
    (src_grid_name value_name target_grid_name : String) :
    GridTransformer × Bool :=
  match (roundTripSt gt src_grid_name value_name target_grid_name).2 with
  | none => ((roundTripSt gt src_grid_name value_name target_grid_name).1, true)
  | some _ => ((roundTripSt gt src_grid_name value_name target_grid_name).1, false)

/-- Source grid A of the worked example: nodes 0, 1, 2 on the x axis with
field v = 10, 20, 30. -/
def gridA : Grid := { nodes := [
  (0, { coord := (0, 0, 0), vals := [("v", .num 10)] }),
  (1, { coord := (1, 0, 0), vals := [("v", .num 20)] }),
  (2, { coord := (2, 0, 0), vals := [("v", .num 30)] })] }

/-- Target grid B of the worked example: nodes 0 and 1 at x = 0 and x = 3/2
with no field values yet. -/
def gridB : Grid := { nodes := [
  (0, { coord := (0, 0, 0), vals := [] }),
  (1, { coord := (3/2, 0, 0), vals := [] })] }

/-- A concrete distance function for the worked example.  All example
coordinates lie on the x axis, so the absolute x difference coincides with
the Euclidean distance on every relevant pair, as certified inside the
theorems that use it. -/
def exDist : Point → Point → ℚ := fun p q => |p.1 - q.1|

/-- Registry holding the worked example grids. -/
def gtEx0 : GridTransformer := { grids := [
  ("A", { transform := [], grid := gridA }),
  ("B", { transform := [], grid := gridB })] }

/-- The correspondence table the source computes for the worked example. -/
def tableEx : Table := [
  (0, some [{ node_number := 2, distance := 0 }, { node_number := 0, distance := 1 }]),
  (1, some [{ node_number := 0, distance := 1/2 }, { node_number := 1, distance := 1/2 }])]

/-- The registry after find_nearest_neighbors on the worked example. -/
def gtEx1 : GridTransformer := { grids := [
  ("A", { transform := [], grid := gridA }),
  ("B", { transform := [("A", tableEx)], grid := gridB })] }

/-- Target grid B after transition on the worked example. -/
def gridB2 : Grid := { nodes := [
  (0, { coord := (0, 0, 0), vals := [("v", .num 30)] }),
  (1, { coord := (3/2, 0, 0), vals := [("v", .num 15)] })] }

/-- The registry after the worked example transition. -/
def gtEx2 : GridTransformer := { grids := [
  ("A", { transform := [], grid := gridA }),
  ("B", { transform := [("A", tableEx)], grid := gridB2 })] }

deriving instance DecidableEq for Except


/-- A registry holding a single grid named A, for the update defect. -/
def gtReg : GridTransformer := { grids := [("A", { transform := [], grid := gridA })] }


/-- Source grid for the single-neighbor cutoff example: two nodes far apart
on the x axis. -/
def gridK1src : Grid := { nodes := [
  (0, { coord := (0, 0, 0), vals := [] }),
  (1, { coord := (10, 0, 0), vals := [] })] }

/-- Target grid for the single-neighbor cutoff example: one node in the
middle, distance 5 from both source nodes. -/
def gridK1tgt : Grid := { nodes := [(0, { coord := (5, 0, 0), vals := [] })] }

/-- Registry for the single-neighbor cutoff example. -/
def gtK1 : GridTransformer := { grids := [
  ("A", { transform := [], grid := gridK1src }),
  ("B", { transform := [], grid := gridK1tgt })] }

/-- Result of find_nearest_neighbors with k = 1 and cutoff 1 on the
single-neighbor example: the lone neighbor at distance 5 is dropped, yet the
entry is an empty list rather than None and the lonely count stays 0. -/
def gtK1res : GridTransformer := { grids := [
  ("A", { transform := [], grid := gridK1src }),
  ("B", { transform := [("A", [(0, some [])])], grid := gridK1tgt })] }


/-- First grid of the non-overlap example: x range [0, 1]. -/
def gridO1 : Grid := { nodes := [
  (0, { coord := (0, 0, 0), vals := [] }),
  (1, { coord := (1, 0, 0), vals := [] })] }

/-- Second grid of the non-overlap example: x range [2, 3]. -/
def gridO2 : Grid := { nodes := [
  (0, { coord := (2, 0, 0), vals := [] }),
  (1, { coord := (3, 0, 0), vals := [] })] }

/-- Registry for the non-overlap example. -/
def gtO : GridTransformer := { grids := [
  ("C", { transform := [], grid := gridO1 }),
  ("D", { transform := [], grid := gridO2 })] }

/-- A table with one exact-match (distance 0) record and one positive
record, for the statistics bookkeeping claim. -/
def tblC8 : Table :=
  [(0, some [{ node_number := 0, distance := 0 }, { node_number := 1, distance := 1 }])]

/-- Registry caching tblC8 as the neighborhood of grid A towards B. -/
def gtC8 : GridTransformer :=
  { grids := [("A", { transform := [("B", tblC8)], grid := gridO1 })] }


theorem lookupA_setKey_self {α β : Type} [DecidableEq α] (l : List (α × β)) (k : α) (v : β) :
    lookupA (setKey l k v) k = some v := by
  induction l with
  | nil => simp [setKey, lookupA]
  | cons h t ih =>
    obtain ⟨k0, v0⟩ := h
    by_cases hk : k0 = k
    · simp [setKey, hk, lookupA]
    · simp [setKey, hk, lookupA, ih]

theorem lookupA_setKey_ne {α β : Type} [DecidableEq α] (l : List (α × β)) (k k2 : α) (v : β)
    (hk : k2 ≠ k) : lookupA (setKey l k v) k2 = lookupA l k2 := by
  induction l with
  | nil => simp [setKey, lookupA, Ne.symm hk]
  | cons h t ih =>
    obtain ⟨k0, v0⟩ := h
    by_cases h0 : k0 = k
    · subst h0
      simp [setKey, lookupA, Ne.symm hk]
    · simp only [setKey, if_neg h0, lookupA]
      by_cases h2 : k0 = k2
      · simp [h2]
      · simp [h2, ih]

theorem setKey_map_fst {α β : Type} [DecidableEq α] (l : List (α × β)) (k : α) (u v : β)
    (h : lookupA l k = some u) : (setKey l k v).map Prod.fst = l.map Prod.fst := by
  induction l with
  | nil => simp [lookupA] at h
  | cons hd t ih =>
    obtain ⟨k0, v0⟩ := hd
    by_cases h0 : k0 = k
    · subst h0
      simp [setKey]
    · simp only [lookupA, if_neg h0] at h
      simp [setKey, if_neg h0, ih h]

theorem listMin_le (l : List ℚ) (x : ℚ) (hx : x ∈ l) : listMin l ≤ x := by
  induction l with
  | nil => cases hx
  | cons a t ih =>
    cases t with
    | nil =>
      rcases List.mem_singleton.mp hx with rfl
      exact le_refl x
    | cons b t2 =>
      rcases List.mem_cons.mp hx with h | h
      · subst h
        exact min_le_left _ _
      · exact le_trans (min_le_right _ _) (ih h)

theorem le_listMax (l : List ℚ) (x : ℚ) (hx : x ∈ l) : x ≤ listMax l := by
  induction l with
  | nil => cases hx
  | cons a t ih =>
    cases t with
    | nil =>
      rcases List.mem_singleton.mp hx with rfl
      exact le_refl x
    | cons b t2 =>
      rcases List.mem_cons.mp hx with h | h
      · subst h
        exact le_max_left _ _
      · exact le_trans (ih h) (le_max_right _ _)

theorem takeSizes_flatten {α : Type} (ss : List ℕ) (xs : List α)
    (h : xs.length ≤ ss.sum) : (takeSizes ss xs).flatten = xs := by
  induction ss generalizing xs with
  | nil =>
    simp only [List.sum_nil, Nat.le_zero] at h
    simp [takeSizes, List.eq_nil_of_length_eq_zero h]
  | cons s t ih =>
    simp only [takeSizes, List.flatten_cons]
    rw [ih (xs.drop s) (by simp only [List.length_drop]; simp only [List.sum_cons] at h; omega)]
    exact List.take_append_drop s xs

theorem sum_range_add_ite (m c : ℕ) :
    ∀ n : ℕ, ((List.range n).map (fun i => c + if i < m then 1 else 0)).sum = n * c + min m n := by
  intro n
  induction n with
  | zero => simp
  | succ k ih =>
    rw [List.range_succ, List.map_append, List.sum_append, ih]
    simp only [List.map_cons, List.map_nil, List.sum_cons, List.sum_nil]
    rw [Nat.succ_mul]
    rcases Nat.lt_or_ge k m with h | h
    · rw [if_pos h, Nat.min_eq_right (Nat.le_of_lt h), Nat.min_eq_right h]
      generalize k * c = a
      omega
    · rw [if_neg (Nat.not_lt.mpr h), Nat.min_eq_left h,
        Nat.min_eq_left (Nat.le_trans h (Nat.le_succ k))]
      generalize k * c = a
      omega

theorem sum_splitSizes (l n : ℕ) (hn : 0 < n) : (splitSizes l n).sum = l := by
  unfold splitSizes
  rw [sum_range_add_ite, Nat.min_eq_left (Nat.le_of_lt (Nat.mod_lt l hn))]
  exact Nat.div_add_mod l n

theorem arraySplit_flatten {α : Type} (n : ℕ) (hn : 0 < n) (xs : List α) :
    (arraySplit n xs).flatten = xs :=
  takeSizes_flatten _ _ (by rw [sum_splitSizes _ _ hn])

theorem find_with_congr
    (q q2 : List Point → (Point → Point → ℚ) → ℕ → List Point → List (List (ℕ × ℚ)))
    (hq : ∀ src d k pts, q src d k pts = q2 src d k pts)
    (gt : GridTransformer) (g1 g2 : String) (k : ℕ) (dm : Option ℚ)
    (d : Point → Point → ℚ) :
    find_nearest_neighbors_with q gt g1 g2 k dm d =
      find_nearest_neighbors_with q2 gt g1 g2 k dm d := by
  unfold find_nearest_neighbors_with
  simp only [hq]

/-- Inverse-distance weight sum of one neighbor list (the final value of the
sum_distance accumulator when no exact match occurs). -/
def sumW (recs : List NRec) : ℚ := (recs.map (fun r => 1 / r.distance)).sum

/-- Weighted value sum of one neighbor list (the final value of the factor
accumulator), for a given per-record value function. -/
def sumF (v : NRec → ℚ) (recs : List NRec) : ℚ :=
  (recs.map (fun r => v r / r.distance)).sum

theorem sumW_cons (r : NRec) (rest : List NRec) :
    sumW (r :: rest) = 1 / r.distance + sumW rest := by simp [sumW]

theorem sumF_cons (v : NRec → ℚ) (r : NRec) (rest : List NRec) :
    sumF v (r :: rest) = v r / r.distance + sumF v rest := by simp [sumF]

theorem sumW_nonneg (recs : List NRec) (hd : ∀ r ∈ recs, 0 < r.distance) :
    0 ≤ sumW recs := by
  induction recs with
  | nil => simp [sumW]
  | cons r rest ih =>
    rw [sumW_cons]
    have h1 : 0 < 1 / r.distance := by
      have := hd r (List.mem_cons_self r rest)
      positivity
    have h2 := ih (fun x hx => hd x (List.mem_cons_of_mem _ hx))
    linarith

theorem sumW_pos (recs : List NRec) (hne : recs ≠ []) (hd : ∀ r ∈ recs, 0 < r.distance) :
    0 < sumW recs := by
  cases recs with
  | nil => exact absurd rfl hne
  | cons r rest =>
    rw [sumW_cons]
    have h1 : 0 < 1 / r.distance := by
      have := hd r (List.mem_cons_self r rest)
      positivity
    have h2 := sumW_nonneg rest (fun x hx => hd x (List.mem_cons_of_mem _ hx))
    linarith

theorem transNodeVal_exact (vals : ℕ → Option FVal) :
    ∀ (recs : List NRec) (S : ℚ) (F : FVal), F ≠ .pynone →
    (∀ r ∈ recs, vals r.node_number ≠ none ∧ vals r.node_number ≠ some .pynone) →
    (∃ r ∈ recs, r.distance = 0) →
    ∃ r ∈ recs, r.distance = 0 ∧ transNodeVal vals recs S F = vals r.node_number := by
  intro recs
  induction recs with
  | nil =>
    intro S F hF hv h0
    rcases h0 with ⟨r, hr, _⟩
    cases hr
  | cons r rest ih =>
    intro S F hF hv h0
    obtain ⟨hne, hnp⟩ := hv r (List.mem_cons_self r rest)
    by_cases hd : r.distance = 0
    · refine ⟨r, List.mem_cons_self r rest, hd, ?_⟩
      cases hval : vals r.node_number with
      | none => exact absurd hval hne
      | some value => simp [transNodeVal, hval, hd]
    · have h0r : ∃ x ∈ rest, x.distance = 0 := by
        rcases h0 with ⟨x, hx, hx0⟩
        rcases List.mem_cons.mp hx with rfl | hx2
        · exact absurd hx0 hd
        · exact ⟨x, hx2, hx0⟩
      cases hval : vals r.node_number with
      | none => exact absurd hval hne
      | some value =>
        have hvp : value ≠ .pynone := by
          intro h
          exact hnp (by rw [hval, h])
        obtain ⟨t, ht, htp⟩ : ∃ t, fMulQ value (1 / r.distance) = some t ∧ t ≠ FVal.pynone := by
          cases value with
          | pynone => exact absurd rfl hvp
          | nan => exact ⟨.nan, rfl, fun h => FVal.noConfusion h⟩
          | num q => exact ⟨.num (q * (1 / r.distance)), rfl, fun h => FVal.noConfusion h⟩
        obtain ⟨f2, hf2, hf2p⟩ : ∃ f2, fAdd F t = some f2 ∧ f2 ≠ FVal.pynone := by
          cases F with
          | pynone => exact absurd rfl hF
          | nan =>
            cases t with
            | pynone => exact absurd rfl htp
            | nan => exact ⟨.nan, rfl, fun h => FVal.noConfusion h⟩
            | num q => exact ⟨.nan, rfl, fun h => FVal.noConfusion h⟩
          | num a =>
            cases t with
            | pynone => exact absurd rfl htp
            | nan => exact ⟨.nan, rfl, fun h => FVal.noConfusion h⟩
            | num b => exact ⟨.num (a + b), rfl, fun h => FVal.noConfusion h⟩
        obtain ⟨x, hx, hx0, hres⟩ :=
          ih (S + 1 / r.distance) f2 hf2p (fun y hy => hv y (List.mem_cons_of_mem _ hy)) h0r
        refine ⟨x, List.mem_cons_of_mem _ hx, hx0, ?_⟩
        simp only [transNodeVal, hval, if_neg hd, ht, hf2]
        exact hres

theorem transNodeVal_idw (vals : ℕ → Option FVal) (v : NRec → ℚ) :
    ∀ (recs : List NRec) (S f : ℚ),
    (∀ r ∈ recs, 0 < r.distance) →
    (∀ r ∈ recs, vals r.node_number = some (.num (v r))) →
    0 < S + sumW recs →
    transNodeVal vals recs S (.num f) =
      some (.num ((f + sumF v recs) / (S + sumW recs))) := by
  intro recs
  induction recs with
  | nil =>
    intro S f hd hv hpos
    have h0 : sumW ([] : List NRec) = 0 := by simp [sumW]
    have hS : S ≠ 0 := by
      rw [h0, add_zero] at hpos
      exact ne_of_gt hpos
    simp [transNodeVal, hS, fDivQ, sumW, sumF]
  | cons r rest ih =>
    intro S f hd hv hpos
    have hdr := hd r (List.mem_cons_self r rest)
    have hvr := hv r (List.mem_cons_self r rest)
    have hdne : ¬ (r.distance = 0) := ne_of_gt hdr
    have hpos2 : 0 < (S + 1 / r.distance) + sumW rest := by
      rw [sumW_cons] at hpos
      linarith
    have hrec := ih (S + 1 / r.distance) (f + v r * (1 / r.distance))
      (fun x hx => hd x (List.mem_cons_of_mem _ hx))
      (fun x hx => hv x (List.mem_cons_of_mem _ hx)) hpos2
    simp only [transNodeVal, hvr, if_neg hdne, fMulQ, fAdd, hrec]
    rw [sumW_cons, sumF_cons]
    congr 2
    have hne : r.distance ≠ 0 := ne_of_gt hdr
    field_simp
    ring

theorem sumF_le_mul (v : NRec → ℚ) (M : ℚ) :
    ∀ recs : List NRec, (∀ r ∈ recs, 0 < r.distance) → (∀ r ∈ recs, v r ≤ M) →
    sumF v recs ≤ M * sumW recs := by
  intro recs
  induction recs with
  | nil =>
    intro _ _
    simp [sumF, sumW]
  | cons r rest ih =>
    intro hd hb
    rw [sumF_cons, sumW_cons]
    have hdr := hd r (List.mem_cons_self r rest)
    have h1 : v r / r.distance ≤ M / r.distance :=
      (div_le_div_iff_of_pos_right hdr).mpr (hb r (List.mem_cons_self r rest))
    have h2 := ih (fun x hx => hd x (List.mem_cons_of_mem _ hx))
      (fun x hx => hb x (List.mem_cons_of_mem _ hx))
    have h3 : M * (1 / r.distance + sumW rest) = M / r.distance + M * sumW rest := by
      ring
    rw [h3]
    linarith

theorem mul_le_sumF (v : NRec → ℚ) (m : ℚ) :
    ∀ recs : List NRec, (∀ r ∈ recs, 0 < r.distance) → (∀ r ∈ recs, m ≤ v r) →
    m * sumW recs ≤ sumF v recs := by
  intro recs
  induction recs with
  | nil =>
    intro _ _
    simp [sumF, sumW]
  | cons r rest ih =>
    intro hd hb
    rw [sumF_cons, sumW_cons]
    have hdr := hd r (List.mem_cons_self r rest)
    have h1 : m / r.distance ≤ v r / r.distance :=
      (div_le_div_iff_of_pos_right hdr).mpr (hb r (List.mem_cons_self r rest))
    have h2 := ih (fun x hx => hd x (List.mem_cons_of_mem _ hx))
      (fun x hx => hb x (List.mem_cons_of_mem _ hx))
    have h3 : m * (1 / r.distance + sumW rest) = m / r.distance + m * sumW rest := by
      ring
    rw [h3]
    linarith

theorem buildTable_multi (srcKeys : List ℕ) (k : ℕ) (dmax : Option ℚ) (hk : k ≠ 1) :
    ∀ (tgtKeys : List ℕ) (rows : List (List (ℕ × ℚ))),
    buildTable srcKeys tgtKeys rows k dmax
      = ((tgtKeys.zip rows).map (fun p =>
          (p.1, if rowToRecs srcKeys dmax p.2 = [] then none
                else some (rowToRecs srcKeys dmax p.2))),
         (tgtKeys.zip rows).countP (fun p => (rowToRecs srcKeys dmax p.2).isEmpty)) := by
  intro tgtKeys
  induction tgtKeys with
  | nil =>
    intro rows
    simp [buildTable]
  | cons t ts ih =>
    intro rows
    cases rows with
    | nil => simp [buildTable]
    | cons r rs =>
      have ihp := ih rs
      simp only [buildTable, if_neg hk, multiEntry, List.zip_cons_cons, List.map_cons,
        List.countP_cons, ihp]
      by_cases he : rowToRecs srcKeys dmax r = []
      · simp [he]
      · simp [he]

/-- The records of one table entry; a None entry carries none. -/
def entryRecs : Option (List NRec) → List NRec
  | none => []
  | some l => l

/-- All neighbor records of a table in iteration order. -/
def allRecs (tbl : Table) : List NRec :=
  (tbl.map (fun te => entryRecs te.2)).flatten

/-- Python falsiness of a table entry: None or the empty list. -/
def falsyEntry : Option (List NRec) → Bool
  | none => true
  | some [] => true
  | some (_ :: _) => false

theorem scanRecs_eq (recs : List NRec) :
    scanRecs recs
      = (recs.filterMap (fun r => if 0 < r.distance then some r.distance else none),
         recs.countP (fun r => decide (r.distance ≤ 0))) := by
  induction recs with
  | nil => simp [scanRecs]
  | cons r rs ih =>
    by_cases h : 0 < r.distance
    · simp [scanRecs, ih, h, List.countP_cons, not_le.mpr h]
    · simp [scanRecs, ih, h, List.countP_cons, not_lt.mp h]

theorem allRecs_cons (n : ℕ) (e : Option (List NRec)) (rest : Table) :
    allRecs ((n, e) :: rest) = entryRecs e ++ allRecs rest := by
  simp [allRecs]

theorem scanTable_eq (tbl : Table) :
    scanTable tbl
      = ((allRecs tbl).filterMap (fun r => if 0 < r.distance then some r.distance else none),
         tbl.countP (fun te => falsyEntry te.2)
           + (allRecs tbl).countP (fun r => decide (r.distance ≤ 0))) := by
  induction tbl with
  | nil => simp [scanTable, allRecs]
  | cons te rest ih =>
    obtain ⟨node, e⟩ := te
    cases e with
    | none =>
      simp [scanTable, ih, allRecs_cons, entryRecs, falsyEntry, List.countP_cons]
      omega
    | some l =>
      cases l with
      | nil =>
        simp [scanTable, ih, allRecs_cons, entryRecs, falsyEntry, List.countP_cons]
        omega
      | cons r rs =>
        by_cases hr : 0 < r.distance
        · simp [scanTable, ih, scanRecs_eq, allRecs_cons, entryRecs, falsyEntry,
            List.countP_cons, List.countP_append, List.filterMap_append,
            List.filterMap_cons, hr]
          omega
        · simp [scanTable, ih, scanRecs_eq, allRecs_cons, entryRecs, falsyEntry,
            List.countP_cons, List.countP_append, List.filterMap_append,
            List.filterMap_cons, hr]
          omega

theorem setNodeValue_frame (g : Grid) (node : ℕ) (vn : String) (v : FVal) (g2 : Grid)
    (h : setNodeValue g node vn v = .ok g2) (nid : ℕ) (hne : nid ≠ node) :
    lookupA g2.nodes nid = lookupA g.nodes nid := by
  unfold setNodeValue at h
  cases hl : lookupA g.nodes node with
  | none =>
    rw [hl] at h
    cases h
  | some nd =>
    rw [hl] at h
    injection h with h2
    subst h2
    exact lookupA_setKey_ne g.nodes node nid _ hne

theorem writeTable_frame (vals : ℕ → Option FVal) (vn : String) :
    ∀ (tbl : Table) (g g2 : Grid), writeTable vals vn g tbl = .ok g2 →
    ∀ nid, nid ∉ tbl.map Prod.fst → lookupA g2.nodes nid = lookupA g.nodes nid := by
  intro tbl
  induction tbl with
  | nil =>
    intro g g2 h nid _
    injection h with h2
    subst h2
    rfl
  | cons te rest ih =>
    intro g g2 h nid hnid
    obtain ⟨node, e⟩ := te
    simp only [List.map_cons, List.mem_cons, not_or] at hnid
    obtain ⟨h1, h2⟩ := hnid
    cases ht : transitionEntry vals e with
    | none =>
      simp only [writeTable, ht] at h
      cases h
    | some v =>
      simp only [writeTable, ht] at h
      cases hs : setNodeValue g node vn v with
      | error err =>
        rw [hs] at h
        cases h
      | ok gmid =>
        rw [hs] at h
        calc lookupA g2.nodes nid = lookupA gmid.nodes nid := ih gmid g2 h nid h2
          _ = lookupA g.nodes nid := setNodeValue_frame g node vn v gmid hs nid h1

theorem writeTable_eq_writeTableSt (vals : ℕ → Option FVal) (vn : String) :
    ∀ (tbl : Table) (g : Grid),
    writeTable vals vn g tbl =
      (match (writeTableSt vals vn g tbl).2 with
       | none => Except.ok (writeTableSt vals vn g tbl).1
       | some e => Except.error e) := by
  intro tbl
  induction tbl with
  | nil =>
    intro g
    rfl
  | cons te rest ih =>
    intro g
    obtain ⟨node, e⟩ := te
    cases h1 : transitionEntry vals e with
    | none => simp only [writeTable, writeTableSt, h1]
    | some v2 =>
      cases h2 : setNodeValue g node vn v2 with
      | error err => simp only [writeTable, writeTableSt, h1, h2]
      | ok g2 =>
        simp only [writeTable, writeTableSt, h1, h2]
        exact ih g2

theorem transition_eq_transitionSt (gt : GridTransformer) (s v t : String) :
    transition gt s v t =
      (match (transitionSt gt s v t).2 with
       | none => Except.ok (transitionSt gt s v t).1
       | some e => Except.error e) := by
  cases h1 : lookupA gt.grids s with
  | none => simp only [transition, transitionSt, h1]
  | some se =>
    cases h2 : lookupA gt.grids t with
    | none => simp only [transition, transitionSt, h1, h2]
    | some te =>
      by_cases hsv : get_node_values se.grid v = []
      · simp only [transition, transitionSt, h1, h2, if_pos hsv]
      · cases h3 : lookupA te.transform s with
        | none => simp only [transition, transitionSt, h1, h2, if_neg hsv, h3]
        | some tbl =>
          simp only [transition, transitionSt, h1, h2, if_neg hsv, h3]
          rw [writeTable_eq_writeTableSt]
          cases hw : (writeTableSt (fun n => lookupA (get_node_values se.grid v) n) v te.grid tbl).2 with
          | none =>
            simp only [hw]
            by_cases hc : check_value_set_completeness
                (writeTableSt (fun n => lookupA (get_node_values se.grid v) n) v te.grid tbl).1 v = true
            · simp [hc]
            · simp [hc]
          | some err => simp [hw]

/-- C1: the spec claims that on the worked example find_nearest_neighbors
maps B node 0 to records A0 at distance 0 and A1 at distance 1, B node 1 to
A1 and A2 at distance 1/2, and that transition assigns 10 and 25.  The code
resolves query indices through grid_1_nodes with index minus one, which in
Python wraps index 0 around to the last node, so the stored records are A2
at distance 0 and A0 at distance 1 for B node 0, A0 and A1 at distance 1/2
for B node 1, and transition assigns 30 and 15 instead.  The first conjunct
certifies that exDist agrees with the Euclidean distance on every relevant
coordinate pair. -/
theorem C1_worked_example_behavior :
    (∀ p ∈ get_coordinates_array gridA, ∀ q ∈ get_coordinates_array gridB,
        exDist p q ^ 2 = sqDist p q ∧ 0 ≤ exDist p q)
    ∧ find_nearest_neighbors gtEx0 "A" "B" 2 none exDist = .ok (gtEx1, 0)
    ∧ lookupA tableEx 0 = some (some [{ node_number := 2, distance := 0 },
        { node_number := 0, distance := 1 }])
    ∧ lookupA tableEx 1 = some (some [{ node_number := 0, distance := 1/2 },
        { node_number := 1, distance := 1/2 }])
    ∧ transition gtEx1 "A" "v" "B" = .ok gtEx2
    ∧ (lookupA gtEx2.grids "B").map (fun e => get_node_values e.grid "v")
        = some [(0, .num 30), (1, .num 15)] := by
  refine ⟨by decide, by decide, by decide, by decide, by decide, by decide⟩

/-- C2: the claim says a successful update removes the grid registered under
the given name and re-adds the new grid there.  The code deletes the literal
dictionary key grid_name instead: updating the registered name A raises a
KeyError (no grid named grid_name exists) and leaves nothing replaced, while
updating an unregistered name raises the unknown-grid error as claimed. -/
theorem C2_update_grid_defect :
    update_grid gtReg gridB "A" = .error (.keyError "grid_name")
    ∧ update_grid gtReg gridB "B" =
        .error (.keyError "Grid with this name does not exist.")
    ∧ lookupA gtReg.grids "A" = some { transform := [], grid := gridA } := by
  refine ⟨by decide, by decide, by decide⟩

/-- C3 counterexample: with k = 1 and finite cutoff 1, the single returned
neighbor of the target node (distance 5 from both source nodes) is dropped,
but the continue statement of the single-neighbor branch skips the
lonely-node check: the stored entry is the empty list, not None, and the
lonely counter stays 0, contradicting the claim for k = 1.  The first
conjunct certifies exDist against the Euclidean distance on the relevant
pairs. -/
theorem C3_counterexample_k1 :
    (∀ p ∈ get_coordinates_array gridK1src, ∀ q ∈ get_coordinates_array gridK1tgt,
        exDist p q ^ 2 = sqDist p q ∧ 0 ≤ exDist p q)
    ∧ find_nearest_neighbors gtK1 "A" "B" 1 (some 1) exDist = .ok (gtK1res, 0)
    ∧ (lookupA gtK1res.grids "B").map (fun e => lookupA e.transform "A")
        = some (some [(0, some [])]) := by
  refine ⟨by decide, by decide, by decide⟩

/-- C3 amended: in the multi-neighbor branch (every k greater or equal 2),
a target node whose neighbors are all dropped by the cutoff gets None
recorded, the lonely counter counts exactly the None entries, and transition
assigns the NaN sentinel both to None entries and to the empty-list entries
the k = 1 branch leaves behind. -/
theorem C3_lonely_nodes_multi (srcKeys tgtKeys : List ℕ) (rows : List (List (ℕ × ℚ)))
    (k : ℕ) (dmax : Option ℚ) (vals : ℕ → Option FVal) (hk : 2 ≤ k) :
    (buildTable srcKeys tgtKeys rows k dmax).1
      = (tgtKeys.zip rows).map (fun p =>
          (p.1, if rowToRecs srcKeys dmax p.2 = [] then none
                else some (rowToRecs srcKeys dmax p.2)))
    ∧ (buildTable srcKeys tgtKeys rows k dmax).2
      = ((buildTable srcKeys tgtKeys rows k dmax).1).countP (fun te => te.2.isNone)
    ∧ transitionEntry vals none = some .nan
    ∧ transitionEntry vals (some []) = some .nan := by
  have hk1 : k ≠ 1 := by omega
  have hb := buildTable_multi srcKeys k dmax hk1 tgtKeys rows
  refine ⟨by rw [hb], ?_, rfl, rfl⟩
  rw [hb]
  simp only [List.countP_map]
  apply List.countP_congr
  intro p _
  by_cases he : rowToRecs srcKeys dmax p.2 = []
  · simp [he, Function.comp]
  · simp [he, Function.comp]

/-- Witness data for the amended lonely-node theorem: one target row whose
lone candidate at distance 5 exceeds the cutoff 1. -/
def rowsW3 : List (List (ℕ × ℚ)) := [[(0, 5)]]

theorem C3_lonely_nodes_multi_witness :
    (2 ≤ 2)
    ∧ ((buildTable [0, 1] [0] rowsW3 2 (some 1)).1
        = ([0].zip rowsW3).map (fun p =>
            (p.1, if rowToRecs [0, 1] (some 1) p.2 = [] then none
                  else some (rowToRecs [0, 1] (some 1) p.2)))
      ∧ (buildTable [0, 1] [0] rowsW3 2 (some 1)).2
        = ((buildTable [0, 1] [0] rowsW3 2 (some 1)).1).countP (fun te => te.2.isNone)
      ∧ transitionEntry (fun _ => none) none = some .nan
      ∧ transitionEntry (fun _ => none) (some []) = some .nan) :=
  ⟨by decide, C3_lonely_nodes_multi [0, 1] [0] rowsW3 2 (some 1) (fun _ => none) (by decide)⟩

/-- C4: for any target node whose correspondence list contains a
zero-distance record, the assigned value is exactly the source value of the
first such record, with no weighting applied, regardless of the other
neighbors in the list.  The hypotheses state that the source field carries a
float (possibly NaN) for every referenced node. -/
theorem C4_exact_match (vals : ℕ → Option FVal) (recs : List NRec)
    (hv : ∀ r ∈ recs, vals r.node_number ≠ none ∧ vals r.node_number ≠ some FVal.pynone)
    (h0 : ∃ r ∈ recs, r.distance = 0) :
    ∃ r ∈ recs, r.distance = 0 ∧ transitionEntry vals (some recs) = vals r.node_number := by
  cases recs with
  | nil =>
    rcases h0 with ⟨r, hr, _⟩
    cases hr
  | cons r rest =>
    have h := transNodeVal_exact vals (r :: rest) 0 (.num 0)
      (fun hc => FVal.noConfusion hc) hv h0
    simpa [transitionEntry] using h

/-- Witness source field for the exact-match theorem. -/
def valsW4 : ℕ → Option FVal := fun n => some (if n = 0 then FVal.num 7 else FVal.num 9)

/-- Witness neighbor list with the zero-distance record second, behind a
nonzero neighbor. -/
def recsW4 : List NRec :=
  [{ node_number := 1, distance := 1 }, { node_number := 0, distance := 0 }]

theorem C4_exact_match_witness :
    ((∀ r ∈ recsW4, valsW4 r.node_number ≠ none ∧ valsW4 r.node_number ≠ some FVal.pynone)
      ∧ (∃ r ∈ recsW4, r.distance = 0))
    ∧ (∃ r ∈ recsW4, r.distance = 0
        ∧ transitionEntry valsW4 (some recsW4) = valsW4 r.node_number) :=
  ⟨⟨by decide, by decide⟩, C4_exact_match valsW4 recsW4 (by decide) (by decide)⟩

/-- C5: for a non-empty correspondence list with all distances strictly
positive and numeric source values, transition assigns exactly the
inverse-distance-weighted average, and that value lies between the minimum
and the maximum of the neighbor values. -/
theorem C5_convexity (vals : ℕ → Option FVal) (v : NRec → ℚ) (recs : List NRec)
    (hne : recs ≠ [])
    (hd : ∀ r ∈ recs, 0 < r.distance)
    (hv : ∀ r ∈ recs, vals r.node_number = some (.num (v r))) :
    transitionEntry vals (some recs) = some (.num (sumF v recs / sumW recs))
    ∧ listMin (recs.map v) ≤ sumF v recs / sumW recs
    ∧ sumF v recs / sumW recs ≤ listMax (recs.map v) := by
  have hW : 0 < sumW recs := sumW_pos recs hne hd
  refine ⟨?_, ?_, ?_⟩
  · cases recs with
    | nil => exact absurd rfl hne
    | cons r rest =>
      have h := transNodeVal_idw vals v (r :: rest) 0 0 hd hv (by rw [zero_add]; exact hW)
      simpa [transitionEntry] using h
  · have hb : ∀ r ∈ recs, listMin (recs.map v) ≤ v r := fun r hr =>
      listMin_le _ _ (List.mem_map_of_mem v hr)
    have hs := mul_le_sumF v (listMin (recs.map v)) recs hd hb
    exact (le_div_iff₀ hW).mpr hs
  · have hb : ∀ r ∈ recs, v r ≤ listMax (recs.map v) := fun r hr =>
      le_listMax _ _ (List.mem_map_of_mem v hr)
    have hs := sumF_le_mul v (listMax (recs.map v)) recs hd hb
    exact (div_le_iff₀ hW).mpr hs

/-- Witness source field for the convexity theorem. -/
def valsW5 : ℕ → Option FVal := fun n => some (.num (if n = 0 then 10 else 20))

/-- Witness value function matching valsW5 on the witness records. -/
def vW5 : NRec → ℚ := fun r => if r.node_number = 0 then 10 else 20

/-- Witness neighbor list: two neighbors at distance 1/2. -/
def recsW5 : List NRec :=
  [{ node_number := 0, distance := 1/2 }, { node_number := 1, distance := 1/2 }]

theorem C5_convexity_witness :
    (recsW5 ≠ [] ∧ (∀ r ∈ recsW5, 0 < r.distance)
      ∧ (∀ r ∈ recsW5, valsW5 r.node_number = some (.num (vW5 r))))
    ∧ (transitionEntry valsW5 (some recsW5) = some (.num (sumF vW5 recsW5 / sumW recsW5))
      ∧ listMin (recsW5.map vW5) ≤ sumF vW5 recsW5 / sumW recsW5
      ∧ sumF vW5 recsW5 / sumW recsW5 ≤ listMax (recsW5.map vW5)) :=
  ⟨⟨by decide, by decide, by decide⟩,
    C5_convexity valsW5 vW5 recsW5 (by decide) (by decide) (by decide)⟩

/-- C6: for two registered grids with nonempty coordinate sets whose
bounding intervals fail to intersect on at least one axis (non-strict
comparison), find_nearest_neighbors always raises a ValueError; since an
error return carries no new state, no correspondence table is produced or
cached and the registry is unchanged. -/
theorem C6_overlap_rejection (gt : GridTransformer) (g1 g2 : String) (k : ℕ)
    (dmax : Option ℚ) (d : Point → Point → ℚ) (e1 e2 : TransGrid)
    (h1 : lookupA gt.grids g1 = some e1) (h2 : lookupA gt.grids g2 = some e2)
    (hc1 : get_coordinates_array e1.grid ≠ []) (hc2 : get_coordinates_array e2.grid ≠ [])
    (hover :
      axisOverlapB (xCoords (get_coordinates_array e1.grid))
          (xCoords (get_coordinates_array e2.grid)) = false
      ∨ axisOverlapB (yCoords (get_coordinates_array e1.grid))
          (yCoords (get_coordinates_array e2.grid)) = false
      ∨ axisOverlapB (zCoords (get_coordinates_array e1.grid))
          (zCoords (get_coordinates_array e2.grid)) = false) :
    ∃ msg, find_nearest_neighbors gt g1 g2 k dmax d = .error (.valueError msg) := by
  unfold find_nearest_neighbors find_nearest_neighbors_with
  simp only [h1, h2]
  have hne : ¬(get_coordinates_array e1.grid = [] ∨ get_coordinates_array e2.grid = []) := by
    simp [hc1, hc2]
  rw [if_neg hne]
  rcases hover with hx | hy | hz
  · rw [if_pos hx]
    exact ⟨_, rfl⟩
  · by_cases hx2 : axisOverlapB (xCoords (get_coordinates_array e1.grid))
        (xCoords (get_coordinates_array e2.grid)) = false
    · rw [if_pos hx2]
      exact ⟨_, rfl⟩
    · rw [if_neg hx2, if_pos hy]
      exact ⟨_, rfl⟩
  · by_cases hx2 : axisOverlapB (xCoords (get_coordinates_array e1.grid))
        (xCoords (get_coordinates_array e2.grid)) = false
    · rw [if_pos hx2]
      exact ⟨_, rfl⟩
    · by_cases hy2 : axisOverlapB (yCoords (get_coordinates_array e1.grid))
          (yCoords (get_coordinates_array e2.grid)) = false
      · rw [if_neg hx2, if_pos hy2]
        exact ⟨_, rfl⟩
      · rw [if_neg hx2, if_neg hy2, if_pos hz]
        exact ⟨_, rfl⟩

theorem C6_overlap_rejection_witness :
    (lookupA gtO.grids "C" = some { transform := [], grid := gridO1 }
      ∧ lookupA gtO.grids "D" = some { transform := [], grid := gridO2 }
      ∧ get_coordinates_array gridO1 ≠ [] ∧ get_coordinates_array gridO2 ≠ []
      ∧ axisOverlapB (xCoords (get_coordinates_array gridO1))
          (xCoords (get_coordinates_array gridO2)) = false)
    ∧ ∃ msg, find_nearest_neighbors gtO "C" "D" 10 none exDist = .error (.valueError msg) :=
  ⟨⟨by decide, by decide, by decide, by decide, by decide⟩,
    C6_overlap_rejection gtO "C" "D" 10 none exDist
      { transform := [], grid := gridO1 } { transform := [], grid := gridO2 }
      (by decide) (by decide) (by decide) (by decide) (Or.inl (by decide))⟩

/-- C7: the chunked query (numpy.array_split into 10 sections, per-section
queries concatenated in input order) returns exactly the same rows as one
single-shot query, and consequently find_nearest_neighbors, which always
takes the chunked path, computes the same result as the single-shot variant
of the dead branch on every input. -/
theorem C7_chunk_invariance :
    (∀ (src : List Point) (d : Point → Point → ℚ) (k : ℕ) (pts : List Point),
      queryChunked src d k pts = queryBatch src d k pts)
    ∧ (∀ (gt : GridTransformer) (g1 g2 : String) (k : ℕ) (dm : Option ℚ)
        (d : Point → Point → ℚ),
      find_nearest_neighbors gt g1 g2 k dm d =
        find_nearest_neighbors_single gt g1 g2 k dm d) := by
  have hq : ∀ (src : List Point) (d : Point → Point → ℚ) (k : ℕ) (pts : List Point),
      queryChunked src d k pts = queryBatch src d k pts := by
    intro src d k pts
    unfold queryChunked queryBatch
    rw [← List.map_flatten, arraySplit_flatten 10 (by omega) pts]
  exact ⟨hq, fun gt g1 g2 k dm d =>
    find_with_congr queryChunked queryBatch hq gt g1 g2 k dm d⟩

/-- C8 counterexample: a table with one entry holding a zero-distance record
and a distance-1 record.  No entry is None, yet nearest_neighbors_stat
reports a lonely count of 1, because its scan counts every non-positive
distance as lonely: the reported lonely count is not the number of None
entries. -/
theorem C8_counterexample_zero_distance :
    nearest_neighbors_stat gtC8 "A"
      = .ok [("B", { count := 1, dmin := 1, dmax := 1, lonely := 1 })]
    ∧ tblC8.countP (fun te => te.2.isNone) = 0 := by
  refine ⟨by decide, by decide⟩

/-- C8 amended: for a non-empty table, the distance population collected by
nearest_neighbors_stat is exactly the strictly positive distances of the
non-falsy entries in iteration order, and the reported lonely count is the
number of falsy entries (None or empty) plus the number of records with
non-positive distance.  The scan is a pure function of the table: it reads
the registry and mutates nothing. -/
theorem C8_stat_population (tbl : Table) (h : tbl ≠ []) :
    statDistances tbl
      = ((allRecs tbl).filterMap (fun r => if 0 < r.distance then some r.distance else none),
         tbl.countP (fun te => falsyEntry te.2)
           + (allRecs tbl).countP (fun r => decide (r.distance ≤ 0))) := by
  unfold statDistances
  rw [if_neg h]
  exact scanTable_eq tbl

/-- Witness table for the statistics population theorem. -/
def tblW8 : Table := [(0, some [{ node_number := 0, distance := 2 }]), (1, none)]

theorem C8_stat_population_witness :
    tblW8 ≠ []
    ∧ statDistances tblW8
      = ((allRecs tblW8).filterMap (fun r => if 0 < r.distance then some r.distance else none),
         tblW8.countP (fun te => falsyEntry te.2)
           + (allRecs tblW8).countP (fun r => decide (r.distance ≤ 0))) :=
  ⟨by decide, C8_stat_population tblW8 (by decide)⟩

/-- C9: transformation_validation never propagates an internal failure: on
every input it is a total function returning a boolean flag together with
the registry state the try block reached, true exactly when the round trip
(both transfers and the loss statistics) succeeded and false exactly when
some step raised, the raised error being swallowed.  The state is threaded
through the pipeline, so in-place mutations performed before a caught raise
are retained: the final conjuncts exhibit this on a registry holding only
the forward correspondence table, where the forward transfer succeeds and
writes the target field, the reverse transfer raises the
missing-correspondence KeyError, and the caught failure returns False while
the written target values persist. -/
theorem C9_validation_no_propagation (gt : GridTransformer) (s v t : String) :
    (((roundTripSt gt s v t).2 = none
        ∧ transformation_validation gt s v t = ((roundTripSt gt s v t).1, true))
      ∨ (∃ e, (roundTripSt gt s v t).2 = some e
        ∧ transformation_validation gt s v t = ((roundTripSt gt s v t).1, false)))
    ∧ transformation_validation gtEx1 "A" "v" "B" = (gtEx2, false)
    ∧ gtEx2 ≠ gtEx1 := by
  refine ⟨?_, by decide, by decide⟩
  cases h : (roundTripSt gt s v t).2 with
  | none =>
    left
    exact ⟨rfl, by simp [transformation_validation, h]⟩
  | some e =>
    right
    exact ⟨e, rfl, by simp [transformation_validation, h]⟩

/-- C10: a successful transition between distinct grid names only writes the
transferred field into the target grid: the set and order of registered
names is unchanged, every entry other than the target (in particular the
source grid with all its field values) is untouched, every cached
correspondence table of every grid is untouched, and target nodes that are
not keys of the used table keep their exact node state. -/
theorem C10_transition_frame (gt gt2 : GridTransformer) (s v t : String) (hst : s ≠ t)
    (h : transition gt s v t = .ok gt2) :
    gt2.grids.map Prod.fst = gt.grids.map Prod.fst
    ∧ (∀ n, n ≠ t → lookupA gt2.grids n = lookupA gt.grids n)
    ∧ (∀ n, (lookupA gt2.grids n).map TransGrid.transform
        = (lookupA gt.grids n).map TransGrid.transform)
    ∧ (∃ te g2, lookupA gt.grids t = some te
        ∧ lookupA gt2.grids t = some { te with grid := g2 }
        ∧ ∃ tbl, lookupA te.transform s = some tbl
            ∧ ∀ nid, nid ∉ tbl.map Prod.fst →
                lookupA g2.nodes nid = lookupA te.grid.nodes nid) := by
  unfold transition at h
  cases hs : lookupA gt.grids s with
  | none =>
    rw [hs] at h
    cases h
  | some se =>
    rw [hs] at h
    cases ht : lookupA gt.grids t with
    | none =>
      simp only [ht] at h
      cases h
    | some te =>
      simp only [ht] at h
      by_cases hsv : get_node_values se.grid v = []
      · rw [if_pos hsv] at h
        cases h
      · rw [if_neg hsv] at h
        cases htbl : lookupA te.transform s with
        | none =>
          simp only [htbl] at h
          cases h
        | some tbl =>
          simp only [htbl] at h
          cases hw : writeTable (fun n => lookupA (get_node_values se.grid v) n) v te.grid tbl with
          | error e =>
            simp only [hw] at h
            cases h
          | ok g2 =>
            simp only [hw] at h
            by_cases hc : check_value_set_completeness g2 v = true
            · rw [if_pos hc] at h
              injection h with h2
              subst h2
              refine ⟨setKey_map_fst gt.grids t te _ ht, ?_, ?_, ?_⟩
              · intro n hn
                exact lookupA_setKey_ne gt.grids t n _ hn
              · intro n
                by_cases hn : n = t
                · subst hn
                  rw [lookupA_setKey_self, ht]
                  rfl
                · rw [lookupA_setKey_ne gt.grids t n _ hn]
              · refine ⟨te, g2, rfl, lookupA_setKey_self gt.grids t _, tbl, htbl, ?_⟩
                intro nid hnid
                exact writeTable_frame _ v tbl te.grid g2 hw nid hnid
            · rw [if_neg hc] at h
              cases h

theorem C10_transition_frame_witness :
    (("A" : String) ≠ "B" ∧ transition gtEx1 "A" "v" "B" = .ok gtEx2)
    ∧ (gtEx2.grids.map Prod.fst = gtEx1.grids.map Prod.fst
      ∧ (∀ n, n ≠ "B" → lookupA gtEx2.grids n = lookupA gtEx1.grids n)
      ∧ (∀ n, (lookupA gtEx2.grids n).map TransGrid.transform
          = (lookupA gtEx1.grids n).map TransGrid.transform)
      ∧ (∃ te g2, lookupA gtEx1.grids "B" = some te
          ∧ lookupA gtEx2.grids "B" = some { te with grid := g2 }
          ∧ ∃ tbl, lookupA te.transform "A" = some tbl
              ∧ ∀ nid, nid ∉ tbl.map Prod.fst →
                  lookupA g2.nodes nid = lookupA te.grid.nodes nid)) :=
  ⟨⟨by decide, by decide⟩,
    C10_transition_frame gtEx1 gtEx2 "A" "v" "B" (by decide) (by decide)⟩
